import Mathlib

/-!
Shallow embedding of the `funksteckdose` crate (`src/lib.rs`): a driver for
433 MHz remote-controlled mains sockets.  Pure functions of the source are
translated to Lean functions; the stateful pin driver is modelled by an
explicit call counter and a recorded trace of pin writes.  Machine integers
(`u64`) are modelled as `Nat` with explicit `% 2 ^ 64` where overflow can
occur.  Busy-wait delays (`Funksteckdose::delay`) only consume real time and
are not part of the observable pin-write trace, so they are not modelled.
-/

namespace Funk

/-- The error enum of `lib.rs` (`error::Error`).  It has exactly three
variants; note there is no `NotImplemented` variant. -/
inductive Error where
  | InvalidGroup : String → Error
  | InvalidDevice : String → Error
  | InvalidState : String → Error
deriving DecidableEq

/-- `Device`: one of five positions A..E. -/
inductive Device where
  | A | B | C | D | E
deriving DecidableEq

/-- `State`: switch a socket on or off. -/
inductive State where
  | On | Off
deriving DecidableEq

/-- `Value`: level to set a GPIO to. -/
inductive Value where
  | Low | High
deriving DecidableEq

/-- Result of running a piece of Rust code that may return `Ok`, return an
`Err`, or panic (`unimplemented!` / `unreachable!`). -/
inductive Outcome (α : Type) where
  | ok : α → Outcome α
  | err : Error → Outcome α
  | panicked : Outcome α
deriving DecidableEq

/-- Byte length of one character in UTF-8, as it contributes to Rust's
`str::len` (which counts bytes, not characters). -/
def charUtf8Len (c : Char) : Nat :=
  if c.toNat < 0x80 then 1
  else if c.toNat < 0x800 then 2
  else if c.toNat < 0x10000 then 3
  else 4

/-- Rust `str::len` of the group argument: its UTF-8 byte count. -/
def strLen (g : String) : Nat :=
  (g.data.map charUtf8Len).sum

/-- The per-device DIP pattern table inlined in `EncodingA::encode`
(`match device { Device::A => "10000", ... }`). -/
def dipPattern : Device → String
  | Device.A => "10000"
  | Device.B => "01000"
  | Device.C => "00100"
  | Device.D => "00010"
  | Device.E => "00001"

/-- The state suffix chained in `EncodingA::encode`
(`State::On => "10"`, `State::Off => "01"`). -/
def stateSuffix : State → String
  | State.On => "10"
  | State.Off => "01"

/-- The final character-to-byte map of `EncodingA::encode`
(`'0' => b'F', _ => b'0'`); `70 = b'F'`, `48 = b'0'`. -/
def triMap (c : Char) : Nat :=
  if c = '0' then 70 else 48

/-- `EncodingA::encode`: validate the group (byte length 5, alphabet 0/1),
then chain group, device DIP pattern and state suffix and map each character
through `triMap`. -/
def EncodingA.encode (group : String) (device : Device) (state : State) :
    Outcome (List Nat) :=
  if strLen group != 5 || group.data.any (fun c => c != '0' && c != '1') then
    Outcome.err (Error.InvalidGroup group)
  else
    Outcome.ok
      ((group.data ++ (dipPattern device).data ++ (stateSuffix state).data).map triMap)

/-- `EncodingB::encode` is `unimplemented!()`: it panics, it does not return
an error value. -/
def EncodingB.encode (_group : String) (_device : Device) (_state : State) :
    Outcome (List Nat) :=
  Outcome.panicked

/-- `EncodingC::encode` is `unimplemented!()`: it panics, it does not return
an error value. -/
def EncodingC.encode (_group : String) (_device : Device) (_state : State) :
    Outcome (List Nat) :=
  Outcome.panicked

/-- `HighLow`: a (high pulses, low pulses) pair. -/
structure HighLow where
  high : Nat
  low : Nat
deriving DecidableEq

/-- `HighLow::new`. -/
def HighLow.new (high low : Nat) : HighLow := ⟨high, low⟩

/-- `ProtocolValues`: timing profile of one protocol. -/
structure ProtocolValues where
  pulse_length : Nat
  sync_factor : HighLow
  zero : HighLow
  one : HighLow
  inverted_signal : Bool
deriving DecidableEq

/-- `Protocol1::values()`. -/
def Protocol1.values : ProtocolValues :=
  ⟨350, HighLow.new 1 31, HighLow.new 1 3, HighLow.new 3 1, false⟩

/-- `Protocol2::values()`. -/
def Protocol2.values : ProtocolValues :=
  ⟨650, HighLow.new 1 10, HighLow.new 1 2, HighLow.new 2 1, false⟩

/-- `Protocol3::values()`. -/
def Protocol3.values : ProtocolValues :=
  ⟨100, HighLow.new 30 71, HighLow.new 4 11, HighLow.new 9 6, false⟩

/-- `Protocol4::values()`. -/
def Protocol4.values : ProtocolValues :=
  ⟨380, HighLow.new 1 6, HighLow.new 1 3, HighLow.new 3 1, false⟩

/-- `Protocol5::values()`. -/
def Protocol5.values : ProtocolValues :=
  ⟨500, HighLow.new 6 14, HighLow.new 1 2, HighLow.new 2 1, false⟩

/-- `ProtocolHT6P20B::values()`. -/
def ProtocolHT6P20B.values : ProtocolValues :=
  ⟨450, HighLow.new 23 1, HighLow.new 1 2, HighLow.new 2 1, true⟩

/-- `ProtocolHS2303::values()`. -/
def ProtocolHS2303.values : ProtocolValues :=
  ⟨150, HighLow.new 2 62, HighLow.new 1 6, HighLow.new 6 1, false⟩

/-- Model of a `Pin` driver: for each call index `n`, `drv n = none` means the
`n`-th `set` call succeeds, `drv n = some e` means it returns `Err(e)`. -/
def PinModel : Type := Nat → Option Error

/-- The handle `Funksteckdose { pin, repeat_transmit, .. }` (the two
`PhantomData` fields carry no data). -/
structure Funksteckdose (T : Type) where
  pin : T
  repeat_transmit : Nat

/-- `Funksteckdose::with_repeat_transmit`: stores the given pin and count. -/
def Funksteckdose.with_repeat_transmit {T : Type} (pin : T) (repeat_transmit : Nat) :
    Funksteckdose T :=
  ⟨pin, repeat_transmit⟩

/-- `Funksteckdose::new`: delegates to `with_repeat_transmit` with count 10. -/
def Funksteckdose.new {T : Type} (pin : T) : Funksteckdose T :=
  Funksteckdose.with_repeat_transmit pin 10

/-- One step of the packing fold in `send_tri_state`:
`code <<= 2` on `u64` (wrapping, hence `% 2 ^ 64`), then `code |= 1` for `b'F'`
or `code |= 3` for `b'1'`; since the two fresh low bits are zero the OR is
addition.  Any other byte hits the `unreachable!()` panic, modelled as `none`.
Byte values: `48 = b'0'`, `70 = b'F'`, `49 = b'1'`. -/
def packStep (code : Nat) (c : Nat) : Option Nat :=
  let code := code * 4 % 2 ^ 64
  if c = 48 then some code
  else if c = 70 then some (code + 1)
  else if c = 49 then some (code + 3)
  else none

/-- The packing fold of `send_tri_state`
(`code_word.iter().fold(0u64, ...)`), with `none` propagating a panic. -/
def packCode (w : List Nat) : Option Nat :=
  w.foldl (fun acc c => acc.bind fun code => packStep code c) (some 0)

/-- State threaded through a transmission: how many `set` calls were made so
far, and the levels successfully written, in order. -/
structure TxState where
  calls : Nat
  writes : List Value

/-- `self.pin.set(v)`: on success the write is recorded, on failure the
driver's error is returned together with the writes so far. -/
def pinSet (drv : PinModel) (v : Value) (st : TxState) :
    Except (Error × List Value) TxState :=
  match drv st.calls with
  | none => Except.ok ⟨st.calls + 1, st.writes ++ [v]⟩
  | some e => Except.error (e, st.writes)

/-- `Funksteckdose::transmit`: set the pin to `first`, busy-wait, set it to
`second`, busy-wait.  The `pulses` argument scales only the two busy-waits
(real time), not the write trace. -/
def transmit (drv : PinModel) (_pulses : HighLow) (first second : Value)
    (st : TxState) : Except (Error × List Value) TxState :=
  match pinSet drv first st with
  | Except.ok st1 => pinSet drv second st1
  | Except.error e => Except.error e

/-- The inner loop `for i in (0..length).rev()` of `send_tri_state`, called
with `n = length`: it processes bit indices `n-1, n-2, ..., 0`.  The Rust bit
test `code & (1 << i) != 0` is `code / 2 ^ i % 2 = 1` on `Nat` (equal for all
`i < 64`, and `length = 24 < 64` for every word of encoding A). -/
def bitLoop (drv : PinModel) (P : ProtocolValues) (first second : Value)
    (code : Nat) : Nat → TxState → Except (Error × List Value) TxState
  | 0, st => Except.ok st
  | i + 1, st =>
    match transmit drv (if code / 2 ^ i % 2 = 1 then P.one else P.zero)
        first second st with
    | Except.ok st1 => bitLoop drv P first second code i st1
    | Except.error e => Except.error e

/-- One iteration of the repeat loop: all bits, then the sync pulse pair. -/
def sendOnce (drv : PinModel) (P : ProtocolValues) (first second : Value)
    (code length : Nat) (st : TxState) : Except (Error × List Value) TxState :=
  match bitLoop drv P first second code length st with
  | Except.ok st1 => transmit drv P.sync_factor first second st1
  | Except.error e => Except.error e

/-- The outer loop `for _ in 0..self.repeat_transmit` of `send_tri_state`. -/
def txLoop (drv : PinModel) (P : ProtocolValues) (first second : Value)
    (code length : Nat) : Nat → TxState → Except (Error × List Value) TxState
  | 0, st => Except.ok st
  | k + 1, st =>
    match sendOnce drv P first second code length st with
    | Except.ok st1 => txLoop drv P first second code length k st1
    | Except.error e => Except.error e

/-- `Funksteckdose::send_tri_state`: pack the code word (a panic there yields
`Outcome.panicked` with no pin activity), choose the polarity pair from
`inverted_signal`, run the repeat loop, then `self.pin.set(&Value::Low)`.
Returns the outcome together with the trace of successful pin writes. -/
def sendTriState (fd : Funksteckdose PinModel) (P : ProtocolValues)
    (w : List Nat) : Outcome Unit × List Value :=
  match packCode w with
  | none => (Outcome.panicked, [])
  | some code =>
    let fs := if P.inverted_signal then (Value.Low, Value.High)
              else (Value.High, Value.Low)
    match txLoop fd.pin P fs.1 fs.2 code (w.length * 2) fd.repeat_transmit ⟨0, []⟩ with
    | Except.ok st =>
      match pinSet fd.pin Value.Low st with
      | Except.ok st2 => (Outcome.ok (), st2.writes)
      | Except.error (e, ws) => (Outcome.err e, ws)
    | Except.error (e, ws) => (Outcome.err e, ws)

/-- `Funksteckdose::send`: encode, propagating an encoder error (or panic)
with no pin activity, then `send_tri_state`. -/
def send (encode : String → Device → State → Outcome (List Nat))
    (P : ProtocolValues) (fd : Funksteckdose PinModel)
    (group : String) (device : Device) (state : State) :
    Outcome Unit × List Value :=
  match encode group device state with
  | Outcome.ok w => sendTriState fd P w
  | Outcome.err e => (Outcome.err e, [])
  | Outcome.panicked => (Outcome.panicked, [])

/-- A pin driver whose `set` always succeeds. -/
def drvOk : PinModel := fun _ => none

/-- A pin driver whose `j`-th `set` call fails with error `e` and all other
calls succeed. -/
def drvFailAt (j : Nat) (e : Error) : PinModel :=
  fun n => if n = j then some e else none

/-- `2 * n` pin levels alternating `first, second, first, second, ...`:
the write trace of `n` consecutive pulse pairs. -/
def pairs (first second : Value) : Nat → List Value
  | 0 => []
  | n + 1 => first :: second :: pairs first second n

/-- Boolean strict-alternation check on a trace: no two consecutive writes
carry the same level. -/
def alternating : List Value → Bool
  | [] => true
  | [_] => true
  | a :: b :: t => a != b && alternating (b :: t)

/-- The 2-bit code of one tri-state symbol byte, following the
specification's wording: `0 → 00`, `F → 01`, `1 → 11`. -/
def triBits (c : Nat) : Option Nat :=
  if c = 48 then some 0
  else if c = 70 then some 1
  else if c = 49 then some 3
  else none

/-- The packed value as the specification words it: the unsigned integer of
`2L` bits obtained by concatenating the 2-bit codes MSB first, with no 64-bit
truncation.  This definition follows the spec's words and is compared against
`packCode`, which embeds the source's `u64` fold. -/
def tristateSpecPack (w : List Nat) : Option Nat :=
  w.foldl (fun acc c => acc.bind fun a => (triBits c).map fun t => a * 4 + t) (some 0)

lemma sum_map_const_one {α : Type} (l : List α) (f : α → Nat)
    (h : ∀ a ∈ l, f a = 1) : (l.map f).sum = l.length := by
  induction l with
  | nil => rfl
  | cons a t ih =>
    simp only [List.map_cons, List.sum_cons, List.length_cons,
      h a (by simp), ih (fun x hx => h x (by simp [hx]))]
    omega

lemma pairs_add (f s : Value) (a b : Nat) :
    pairs f s (a + b) = pairs f s a ++ pairs f s b := by
  induction a with
  | zero => simp [pairs]
  | succ a ih => simp [pairs, Nat.succ_add, ih]

lemma pairs_snoc (f s : Value) (n : Nat) :
    pairs f s n ++ [f, s] = pairs f s (n + 1) := by
  rw [pairs_add]
  rfl

lemma pairs_length (f s : Value) : ∀ n, (pairs f s n).length = 2 * n
  | 0 => rfl
  | n + 1 => by simp [pairs, pairs_length f s n]; omega

lemma join_replicate_pairs (f s : Value) (m : Nat) :
    ∀ k, (List.replicate k (pairs f s m)).flatten = pairs f s (k * m)
  | 0 => by simp [pairs]
  | k + 1 => by
    have h : (k + 1) * m = m + k * m := by ring
    simp [List.replicate_succ, List.flatten, join_replicate_pairs f s m k, h, pairs_add]

lemma transmit_drvOk (hl : HighLow) (f s : Value) (st : TxState) :
    transmit drvOk hl f s st = Except.ok ⟨st.calls + 2, st.writes ++ [f, s]⟩ := by
  simp [transmit, pinSet, drvOk, List.append_assoc]

lemma bitLoop_drvOk (P : ProtocolValues) (f s : Value) (code : Nat) :
    ∀ (n : Nat) (st : TxState),
      bitLoop drvOk P f s code n st =
        Except.ok ⟨st.calls + 2 * n, st.writes ++ pairs f s n⟩ := by
  intro n
  induction n with
  | zero => intro st; simp [bitLoop, pairs]
  | succ n ih =>
    intro st
    rw [bitLoop, transmit_drvOk]
    show bitLoop drvOk P f s code n ⟨st.calls + 2, st.writes ++ [f, s]⟩ = _
    rw [ih]
    simp [pairs, List.append_assoc]
    omega

lemma sendOnce_drvOk (P : ProtocolValues) (f s : Value) (code n : Nat)
    (st : TxState) :
    sendOnce drvOk P f s code n st =
      Except.ok ⟨st.calls + (2 * n + 2), st.writes ++ pairs f s (n + 1)⟩ := by
  rw [sendOnce, bitLoop_drvOk]
  show transmit drvOk P.sync_factor f s ⟨st.calls + 2 * n, st.writes ++ pairs f s n⟩ = _
  rw [transmit_drvOk, List.append_assoc, pairs_snoc]
  have h1 : st.calls + 2 * n + 2 = st.calls + (2 * n + 2) := by ring
  rw [h1]

lemma txLoop_drvOk (P : ProtocolValues) (f s : Value) (code n : Nat) :
    ∀ (k : Nat) (st : TxState),
      txLoop drvOk P f s code n k st =
        Except.ok ⟨st.calls + k * (2 * n + 2), st.writes ++ pairs f s (k * (n + 1))⟩ := by
  intro k
  induction k with
  | zero => intro st; simp [txLoop, pairs]
  | succ k ih =>
    intro st
    rw [txLoop, sendOnce_drvOk]
    show txLoop drvOk P f s code n k ⟨st.calls + (2 * n + 2), st.writes ++ pairs f s (n + 1)⟩ = _
    rw [ih]
    have h2 : n + 1 + k * (n + 1) = (k + 1) * (n + 1) := by ring
    have h1 : st.calls + (2 * n + 2) + k * (2 * n + 2) = st.calls + (k + 1) * (2 * n + 2) := by
      ring
    rw [List.append_assoc, ← pairs_add, h2, h1]

lemma sendTriState_drvOk_notinv (P : ProtocolValues) (k : Nat) (w : List Nat)
    (code : Nat) (hpack : packCode w = some code)
    (hinv : P.inverted_signal = false) :
    sendTriState ⟨drvOk, k⟩ P w =
      (Outcome.ok (),
        pairs Value.High Value.Low (k * (w.length * 2 + 1)) ++ [Value.Low]) := by
  unfold sendTriState
  rw [hpack]
  show (let fs := if P.inverted_signal then (Value.Low, Value.High)
                  else (Value.High, Value.Low);
        match txLoop drvOk P fs.1 fs.2 code (w.length * 2) k ⟨0, []⟩ with
        | Except.ok st =>
          match pinSet drvOk Value.Low st with
          | Except.ok st2 => (Outcome.ok (), st2.writes)
          | Except.error (e, ws) => (Outcome.err e, ws)
        | Except.error (e, ws) => (Outcome.err e, ws)) = _
  rw [hinv]
  show (match txLoop drvOk P Value.High Value.Low code (w.length * 2) k ⟨0, []⟩ with
        | Except.ok st =>
          match pinSet drvOk Value.Low st with
          | Except.ok st2 => (Outcome.ok (), st2.writes)
          | Except.error (e, ws) => (Outcome.err e, ws)
        | Except.error (e, ws) => (Outcome.err e, ws)) = _
  rw [txLoop_drvOk]
  simp [pinSet, drvOk]

lemma pinSet_ok_writes (drv : PinModel) (v : Value) (st st2 : TxState)
    (h : pinSet drv v st = Except.ok st2) :
    st2.writes = st.writes ++ [v] := by
  unfold pinSet at h
  split at h
  · injection h with h2
    rw [← h2]
  · exact absurd h (by simp)

lemma sendTriState_ok_trailing (fd : Funksteckdose PinModel)
    (P : ProtocolValues) (w : List Nat) (ws : List Value)
    (h : sendTriState fd P w = (Outcome.ok (), ws)) :
    ∃ t, ws = t ++ [Value.Low] := by
  unfold sendTriState at h
  split at h
  · simp at h
  · split at h
    · dsimp only at h
      split at h
      · split at h
        · rename_i x1 st1 heq1 x2 st2 heq2
          simp only [Prod.mk.injEq] at h
          refine ⟨st1.writes, ?_⟩
          rw [← h.2]
          exact pinSet_ok_writes _ _ _ _ heq2
        · simp at h
      · simp at h
    · dsimp only at h
      split at h
      · split at h
        · rename_i x1 st1 heq1 x2 st2 heq2
          simp only [Prod.mk.injEq] at h
          refine ⟨st1.writes, ?_⟩
          rw [← h.2]
          exact pinSet_ok_writes _ _ _ _ heq2
        · simp at h
      · simp at h

lemma send_ok_trailing (enc : String → Device → State → Outcome (List Nat))
    (P : ProtocolValues) (fd : Funksteckdose PinModel)
    (g : String) (d : Device) (s : State) (ws : List Value)
    (h : send enc P fd g d s = (Outcome.ok (), ws)) :
    ∃ t, ws = t ++ [Value.Low] := by
  unfold send at h
  split at h
  · exact sendTriState_ok_trailing _ _ _ _ h
  · simp at h
  · simp at h

lemma encodeA_group_cond (g : String) :
    (strLen g != 5 || g.data.any fun c => c != '0' && c != '1') = true ↔
      (g.data.length ≠ 5 ∨ ∃ c ∈ g.data, c ≠ '0' ∧ c ≠ '1') := by
  simp only [Bool.or_eq_true, bne_iff_ne, ne_eq, List.any_eq_true,
    Bool.and_eq_true]
  by_cases hbad : ∃ c ∈ g.data, ¬c = '0' ∧ ¬c = '1'
  · constructor
    · intro _
      right
      obtain ⟨c, hc, h0, h1⟩ := hbad
      exact ⟨c, hc, h0, h1⟩
    · intro _
      right
      obtain ⟨c, hc, h0, h1⟩ := hbad
      exact ⟨c, hc, h0, h1⟩
  · have hall : ∀ c ∈ g.data, c = '0' ∨ c = '1' := by
      intro c hc
      by_contra hcon
      push_neg at hcon
      exact hbad ⟨c, hc, hcon.1, hcon.2⟩
    have hlen : strLen g = g.data.length := by
      rw [strLen]
      apply sum_map_const_one
      intro c hc
      rcases hall c hc with rfl | rfl <;> rfl
    constructor
    · intro h
      rcases h with h | h
      · left; rw [← hlen]; exact h
      · exact absurd h hbad
    · intro h
      rcases h with h | h
      · left; rw [hlen]; exact h
      · exact absurd h hbad

lemma dipPattern_data_length (d : Device) : (dipPattern d).data.length = 5 := by
  cases d <;> rfl

lemma stateSuffix_data_length (s : State) : (stateSuffix s).data.length = 2 := by
  cases s <;> rfl

lemma dipPattern_length (d : Device) : (dipPattern d).length = 5 := by
  cases d <;> rfl

lemma stateSuffix_length (s : State) : (stateSuffix s).length = 2 := by
  cases s <;> rfl

lemma triMap_cases (c : Char) : triMap c = 48 ∨ triMap c = 70 := by
  rw [triMap]
  split
  · right; rfl
  · left; rfl

lemma encodeA_ok_eq (g : String) (d : Device) (s : State) (w : List Nat)
    (h : EncodingA.encode g d s = Outcome.ok w) :
    w = (g.data ++ (dipPattern d).data ++ (stateSuffix s).data).map triMap := by
  unfold EncodingA.encode at h
  split at h
  · exact absurd h (by simp)
  · simpa using h.symm

lemma encodeA_ok_bytes (g : String) (d : Device) (s : State) (w : List Nat)
    (h : EncodingA.encode g d s = Outcome.ok w) :
    ∀ b ∈ w, b = 48 ∨ b = 70 := by
  rw [encodeA_ok_eq g d s w h]
  intro b hb
  obtain ⟨c, -, rfl⟩ := List.mem_map.mp hb
  exact triMap_cases c

lemma encodeA_ne_panicked (g : String) (d : Device) (s : State) :
    EncodingA.encode g d s ≠ Outcome.panicked := by
  unfold EncodingA.encode
  split <;> simp

lemma packFold_bytes_some :
    ∀ (w : List Nat) (a : Nat), (∀ c ∈ w, c = 48 ∨ c = 70) →
      ∃ n, w.foldl (fun acc c => acc.bind fun code => packStep code c) (some a) =
        some n
  | [], a, _ => ⟨a, rfl⟩
  | c :: t, a, hc => by
    have ht : ∀ x ∈ t, x = 48 ∨ x = 70 := fun x hx => hc x (by simp [hx])
    rcases hc c (by simp) with rfl | rfl
    · exact packFold_bytes_some t (a * 4 % 2 ^ 64) ht
    · exact packFold_bytes_some t (a * 4 % 2 ^ 64 + 1) ht

lemma pack_agree :
    ∀ (w : List Nat) (a : Nat), (∀ c ∈ w, c = 48 ∨ c = 70 ∨ c = 49) →
      (a + 1) * 4 ^ w.length ≤ 2 ^ 64 →
      w.foldl (fun acc c => acc.bind fun code => packStep code c) (some a) =
        w.foldl (fun acc c => acc.bind fun a2 => (triBits c).map fun t => a2 * 4 + t)
          (some a)
  | [], _, _, _ => rfl
  | c :: t, a, hc, hb => by
    have hb4 : (a + 1) * 4 * 4 ^ t.length ≤ 2 ^ 64 := by
      have : (a + 1) * 4 ^ (c :: t).length = (a + 1) * 4 * 4 ^ t.length := by
        simp [List.length_cons, pow_succ]
        ring
      rw [← this]
      exact hb
    have hmod : a * 4 % 2 ^ 64 = a * 4 := by
      apply Nat.mod_eq_of_lt
      have h1 : a * 4 < (a + 1) * 4 := by omega
      have h2 : (a + 1) * 4 ≤ (a + 1) * 4 * 4 ^ t.length :=
        Nat.le_mul_of_pos_right _ (Nat.pos_pow_of_pos _ (by norm_num))
      omega
    have ht : ∀ x ∈ t, x = 48 ∨ x = 70 ∨ x = 49 := fun x hx => hc x (by simp [hx])
    have hnext : ∀ b : Nat, b + 1 ≤ (a + 1) * 4 → (b + 1) * 4 ^ t.length ≤ 2 ^ 64 := by
      intro b hb1
      calc (b + 1) * 4 ^ t.length ≤ (a + 1) * 4 * 4 ^ t.length :=
            Nat.mul_le_mul_right _ hb1
        _ ≤ 2 ^ 64 := hb4
    rcases hc c (by simp) with rfl | rfl | rfl
    · show List.foldl (fun acc c => acc.bind fun code => packStep code c)
          (some (a * 4 % 2 ^ 64)) t =
        List.foldl (fun acc c => acc.bind fun a2 => (triBits c).map fun t2 => a2 * 4 + t2)
          (some (a * 4)) t
      rw [hmod]
      exact pack_agree t (a * 4) ht (hnext _ (by omega))
    · show List.foldl (fun acc c => acc.bind fun code => packStep code c)
          (some (a * 4 % 2 ^ 64 + 1)) t =
        List.foldl (fun acc c => acc.bind fun a2 => (triBits c).map fun t2 => a2 * 4 + t2)
          (some (a * 4 + 1)) t
      rw [hmod]
      exact pack_agree t (a * 4 + 1) ht (hnext _ (by omega))
    · show List.foldl (fun acc c => acc.bind fun code => packStep code c)
          (some (a * 4 % 2 ^ 64 + 3)) t =
        List.foldl (fun acc c => acc.bind fun a2 => (triBits c).map fun t2 => a2 * 4 + t2)
          (some (a * 4 + 3)) t
      rw [hmod]
      exact pack_agree t (a * 4 + 3) ht (hnext _ (by omega))

/-- Claim C1: for every group string of length 5 over the alphabet `{0,1}`,
every device in `{A,B,C,D,E}` and every state in `{On,Off}`,
`EncodingA::encode` returns `Ok` with a byte sequence of length exactly 12
containing only the bytes `b'0'` (48) and `b'F'` (70), whose first 5 symbols
are the group mapped character-wise by `'0' → 'F'` and `'1' → '0'`, whose
symbols 6-10 are the device's DIP pattern under the same mapping, and whose
last two symbols are `'0','F'` for `On` and `'F','0'` for `Off`. -/
theorem encodeA_valid_group_structure (g : String) (d : Device) (s : State)
    (hlen : g.data.length = 5) (hchars : ∀ c ∈ g.data, c = '0' ∨ c = '1') :
    ∃ w, EncodingA.encode g d s = Outcome.ok w ∧
      w.length = 12 ∧
      (∀ b ∈ w, b = 48 ∨ b = 70) ∧
      w.take 5 = g.data.map triMap ∧
      (w.drop 5).take 5 = (dipPattern d).data.map triMap ∧
      w.drop 10 = (match s with | State.On => [48, 70] | State.Off => [70, 48]) := by
  have hsz : ∀ c ∈ g.data, charUtf8Len c = 1 := by
    intro c hc
    rcases hchars c hc with rfl | rfl <;> rfl
  have hlen5 : strLen g = 5 := by
    rw [strLen, sum_map_const_one g.data charUtf8Len hsz, hlen]
  have hany : (g.data.any fun c => c != '0' && c != '1') = false := by
    rw [List.any_eq_false]
    intro c hc
    rcases hchars c hc with rfl | rfl <;> simp
  have hcond : (strLen g != 5 || g.data.any fun c => c != '0' && c != '1') = false := by
    rw [hlen5, hany]
    rfl
  have hok : EncodingA.encode g d s =
      Outcome.ok ((g.data ++ (dipPattern d).data ++ (stateSuffix s).data).map triMap) := by
    unfold EncodingA.encode
    rw [hcond]
    simp
  refine ⟨_, hok, ?_, ?_, ?_, ?_, ?_⟩
  · simp [List.length_append, hlen, dipPattern_data_length, stateSuffix_data_length,
      dipPattern_length, stateSuffix_length]
  · intro b hb
    obtain ⟨c, -, rfl⟩ := List.mem_map.mp hb
    exact triMap_cases c
  · rw [List.map_append, List.map_append, List.append_assoc]
    exact List.take_left' (by simp [hlen])
  · rw [List.map_append, List.map_append, List.append_assoc,
      List.drop_left' (by simp [hlen] : (g.data.map triMap).length = 5)]
    exact List.take_left' (by simp [dipPattern_data_length, dipPattern_length])
  · rw [List.map_append, List.map_append,
      List.drop_left' (by simp [hlen, dipPattern_data_length, dipPattern_length] :
        (g.data.map triMap ++ (dipPattern d).data.map triMap).length = 10)]
    cases s <;> rfl

/-- Witness for C1 at the concrete input group "10001", device A, state On. -/
theorem encodeA_valid_group_structure_witness :
    ∃ w, EncodingA.encode "10001" Device.A State.On = Outcome.ok w ∧
      w.length = 12 ∧
      (∀ b ∈ w, b = 48 ∨ b = 70) ∧
      w.take 5 = "10001".data.map triMap ∧
      (w.drop 5).take 5 = (dipPattern Device.A).data.map triMap ∧
      w.drop 10 = [48, 70] :=
  encodeA_valid_group_structure "10001" Device.A State.On (by decide) (by decide)

/-- Claim C4: `EncodingA::encode` returns `Err(InvalidGroup(group))` carrying
exactly the input group string iff the group string's length differs from 5
or it contains a character other than '0' or '1'; and when the encoder
errors, `send` returns that error unchanged and performs no pin set call. -/
theorem encodeA_invalid_group_iff (g : String) (d : Device) (s : State) :
    (EncodingA.encode g d s = Outcome.err (Error.InvalidGroup g) ↔
      (g.data.length ≠ 5 ∨ ∃ c ∈ g.data, c ≠ '0' ∧ c ≠ '1')) ∧
    (∀ (e : Error) (P : ProtocolValues) (fd : Funksteckdose PinModel),
      EncodingA.encode g d s = Outcome.err e →
        send EncodingA.encode P fd g d s = (Outcome.err e, [])) := by
  constructor
  · by_cases hc : (strLen g != 5 || g.data.any fun c => c != '0' && c != '1') = true
    · have henc : EncodingA.encode g d s = Outcome.err (Error.InvalidGroup g) := by
        unfold EncodingA.encode
        rw [if_pos hc]
      exact Iff.intro (fun _ => (encodeA_group_cond g).mp hc) (fun _ => henc)
    · have henc : EncodingA.encode g d s =
          Outcome.ok ((g.data ++ (dipPattern d).data ++ (stateSuffix s).data).map triMap) := by
        unfold EncodingA.encode
        rw [if_neg hc]
      constructor
      · intro h
        rw [henc] at h
        exact absurd h (by simp)
      · intro h
        exact absurd ((encodeA_group_cond g).mpr h) hc
  · intro e P fd h
    unfold send
    rw [h]

/-- Witness for C4 at the concrete invalid group "1000". -/
theorem encodeA_invalid_group_iff_witness :
    send EncodingA.encode Protocol1.values
        (Funksteckdose.with_repeat_transmit drvOk 1) "1000" Device.A State.On =
      (Outcome.err (Error.InvalidGroup "1000"), []) :=
  (encodeA_invalid_group_iff "1000" Device.A State.On).2
    (Error.InvalidGroup "1000") Protocol1.values
    (Funksteckdose.with_repeat_transmit drvOk 1) rfl

/-- Counterexample to claim C7 at a concrete input: `EncodingB::encode` and
`EncodingC::encode` do not return any error value to the caller; they hit
the `unimplemented!()` panic, and the `Error` enum has no NotImplemented
variant at all. -/
theorem encodingB_panics_not_error :
    EncodingB.encode "10001" Device.A State.On = Outcome.panicked ∧
    (¬∃ e, EncodingB.encode "10001" Device.A State.On = Outcome.err e) ∧
    EncodingC.encode "10001" Device.A State.On = Outcome.panicked ∧
    (¬∃ e, EncodingC.encode "10001" Device.A State.On = Outcome.err e) := by
  refine ⟨rfl, ?_, rfl, ?_⟩
  · rintro ⟨e, h⟩
    exact absurd h (by simp [EncodingB.encode])
  · rintro ⟨e, h⟩
    exact absurd h (by simp [EncodingC.encode])

/-- Claim C7 (amended): invoking `EncodingB::encode` or `EncodingC::encode`
panics via `unimplemented!()` for every input; no error value is returned to
the caller. -/
theorem encodingBC_always_panic (g : String) (d : Device) (s : State) :
    EncodingB.encode g d s = Outcome.panicked ∧
    EncodingC.encode g d s = Outcome.panicked ∧
    (¬∃ e, EncodingB.encode g d s = Outcome.err e) ∧
    (¬∃ e, EncodingC.encode g d s = Outcome.err e) := by
  refine ⟨rfl, rfl, ?_, ?_⟩ <;> rintro ⟨e, h⟩ <;>
    exact absurd h (by simp [EncodingB.encode, EncodingC.encode])

/-- Claim C8: the seven protocol profiles carry exactly the table's values
(pulse length, sync high/low, zero high/low, one high/low, inversion). -/
theorem protocol_table_values :
    Protocol1.values = ⟨350, ⟨1, 31⟩, ⟨1, 3⟩, ⟨3, 1⟩, false⟩ ∧
    Protocol2.values = ⟨650, ⟨1, 10⟩, ⟨1, 2⟩, ⟨2, 1⟩, false⟩ ∧
    Protocol3.values = ⟨100, ⟨30, 71⟩, ⟨4, 11⟩, ⟨9, 6⟩, false⟩ ∧
    Protocol4.values = ⟨380, ⟨1, 6⟩, ⟨1, 3⟩, ⟨3, 1⟩, false⟩ ∧
    Protocol5.values = ⟨500, ⟨6, 14⟩, ⟨1, 2⟩, ⟨2, 1⟩, false⟩ ∧
    ProtocolHT6P20B.values = ⟨450, ⟨23, 1⟩, ⟨1, 2⟩, ⟨2, 1⟩, true⟩ ∧
    ProtocolHS2303.values = ⟨150, ⟨2, 62⟩, ⟨1, 6⟩, ⟨6, 1⟩, false⟩ :=
  ⟨rfl, rfl, rfl, rfl, rfl, rfl, rfl⟩

/-- Counterexample to claim C9: `with_repeat_transmit` accepts 0 unvalidated,
so a handle with `repeat_transmit = 0` is constructible. -/
theorem repeat_transmit_zero_constructible :
    (Funksteckdose.with_repeat_transmit drvOk 0).repeat_transmit = 0 ∧
    ¬1 ≤ (Funksteckdose.with_repeat_transmit drvOk 0).repeat_transmit :=
  ⟨rfl, by decide⟩

/-- Claim C9 (amended): the pin-only constructor `new` uses the default
repeat count 10, but `with_repeat_transmit` stores any given count
unvalidated, including 0. -/
theorem repeat_transmit_constructors {T : Type} (pin : T) :
    (Funksteckdose.new pin).repeat_transmit = 10 ∧
    (∀ r : Nat, (Funksteckdose.with_repeat_transmit pin r).repeat_transmit = r) :=
  ⟨rfl, fun _ => rfl⟩

/-- Claim C10: every byte of a word produced by `EncodingA::encode` is `b'0'`
or `b'F'`, so the packing fold of `send_tri_state` is total on it (the
`unreachable!()` fall-through branch is dead) and `send` with encoding A
never panics for any input. -/
theorem packCode_total_on_encodeA :
    (∀ (g : String) (d : Device) (s : State) (w : List Nat),
      EncodingA.encode g d s = Outcome.ok w → ∃ n, packCode w = some n) ∧
    (∀ (g : String) (d : Device) (s : State) (P : ProtocolValues)
        (fd : Funksteckdose PinModel),
      (send EncodingA.encode P fd g d s).1 ≠ Outcome.panicked) := by
  have hpack : ∀ (g : String) (d : Device) (s : State) (w : List Nat),
      EncodingA.encode g d s = Outcome.ok w → ∃ n, packCode w = some n := by
    intro g d s w h
    exact packFold_bytes_some w 0 (encodeA_ok_bytes g d s w h)
  refine ⟨hpack, ?_⟩
  intro g d s P fd
  unfold send
  rcases henc : EncodingA.encode g d s with w | e
  · simp only [henc]
    obtain ⟨n, hn⟩ := hpack g d s w henc
    unfold sendTriState
    rw [hn]
    dsimp only
    split
    · split
      · simp
      · simp
    · simp
  · simp only [henc]
    simp
  · exact absurd henc (encodeA_ne_panicked g d s)

/-- Witness for C10 at the concrete input group "10001", device A, state
On. -/
theorem packCode_total_on_encodeA_witness :
    ∃ n, packCode [48, 70, 70, 70, 48, 48, 70, 70, 70, 70, 48, 70] = some n :=
  packCode_total_on_encodeA.1 "10001" Device.A State.On
    [48, 70, 70, 70, 48, 48, 70, 70, 70, 70, 48, 70] rfl

/-- Claim C2: with EncodingA, Protocol1 and an always-succeeding pin driver,
`send "10001" A On` with `repeat_transmit = k` emits the per-bit-plus-sync
block of 25 pulse pairs (24 bit pairs plus 1 sync pair, 50 pin writes)
exactly k times, followed by exactly one trailing LOW write; the trace has
`50 k + 1` pin set calls, in particular exactly 51 for `k = 1`. -/
theorem send_protocol1_repeat_writes (k : Nat) :
    send EncodingA.encode Protocol1.values
        (Funksteckdose.with_repeat_transmit drvOk k) "10001" Device.A State.On =
      (Outcome.ok (),
        (List.replicate k (pairs Value.High Value.Low 25)).flatten ++ [Value.Low]) ∧
    ((List.replicate k (pairs Value.High Value.Low 25)).flatten ++ [Value.Low]).length
      = 50 * k + 1 := by
  constructor
  · have henc : EncodingA.encode "10001" Device.A State.On =
        Outcome.ok [48, 70, 70, 70, 48, 48, 70, 70, 70, 70, 48, 70] := rfl
    have hst := sendTriState_drvOk_notinv Protocol1.values k
      [48, 70, 70, 70, 48, 48, 70, 70, 70, 70, 48, 70] 1377617 rfl rfl
    unfold send
    rw [henc]
    show sendTriState ⟨drvOk, k⟩ Protocol1.values
        [48, 70, 70, 70, 48, 48, 70, 70, 70, 70, 48, 70] = _
    rw [hst, join_replicate_pairs]
    norm_num
  · rw [join_replicate_pairs, List.length_append, pairs_length]
    simp only [List.length_singleton]
    omega

/-- Claim C3 (amended): for every tri-state word over the bytes
`{'0','F','1'}` of length at most 32, the `u64` packing fold of
`send_tri_state` computes exactly the MSB-first concatenation of the 2-bit
codes (`'0'→00`, `'F'→01`, `'1'→11`); in particular the word produced by
`encode("10001", A, On)` packs to 1377617, the concatenation value of its 12
two-bit codes.  (For words longer than 32 symbols the `u64` accumulator
truncates modulo `2 ^ 64`.) -/
theorem pack_matches_spec_upto32 :
    (∀ w : List Nat, (∀ c ∈ w, c = 48 ∨ c = 70 ∨ c = 49) → w.length ≤ 32 →
      packCode w = tristateSpecPack w) ∧
    EncodingA.encode "10001" Device.A State.On =
      Outcome.ok [48, 70, 70, 70, 48, 48, 70, 70, 70, 70, 48, 70] ∧
    packCode [48, 70, 70, 70, 48, 48, 70, 70, 70, 70, 48, 70] = some 1377617 ∧
    tristateSpecPack [48, 70, 70, 70, 48, 48, 70, 70, 70, 70, 48, 70] =
      some 1377617 := by
  refine ⟨?_, rfl, rfl, rfl⟩
  intro w hw hlen
  unfold packCode tristateSpecPack
  apply pack_agree w 0 hw
  calc (0 + 1) * 4 ^ w.length = 4 ^ w.length := by ring
    _ ≤ 4 ^ 32 := Nat.pow_le_pow_right (by norm_num) hlen
    _ = 2 ^ 64 := by norm_num

/-- Witness for C3 (amended) at the concrete 12-symbol word produced by
`encode("10001", A, On)`. -/
theorem pack_matches_spec_upto32_witness :
    packCode [48, 70, 70, 70, 48, 48, 70, 70, 70, 70, 48, 70] =
      tristateSpecPack [48, 70, 70, 70, 48, 48, 70, 70, 70, 70, 48, 70] :=
  pack_matches_spec_upto32.1 [48, 70, 70, 70, 48, 48, 70, 70, 70, 70, 48, 70]
    (by decide) (by decide)

/-- Counterexample to claim C3 as stated: on the 33-symbol word of all `'1'`
bytes the `u64` fold wraps to `2 ^ 64 - 1`, while the MSB-first 66-bit
concatenation value is `2 ^ 66 - 1`. -/
theorem pack_overflow_counterexample :
    packCode (List.replicate 33 49) = some (2 ^ 64 - 1) ∧
    tristateSpecPack (List.replicate 33 49) = some (2 ^ 66 - 1) ∧
    packCode (List.replicate 33 49) ≠ tristateSpecPack (List.replicate 33 49) :=
  ⟨rfl, rfl, by decide⟩

/-- Counterexample to claim C5: a send in which the second pin set call
fails (after the first pin write has already happened) records only the
single write `[High]`: the pin is never driven LOW at all, let alone exactly
once. -/
theorem send_pin_failure_no_trailing_low :
    send EncodingA.encode Protocol1.values
        (Funksteckdose.with_repeat_transmit
          (drvFailAt 1 (Error.InvalidDevice "pin failure")) 1)
        "10001" Device.A State.On =
      (Outcome.err (Error.InvalidDevice "pin failure"), [Value.High]) ∧
    Value.Low ∉ [Value.High] :=
  ⟨rfl, by decide⟩

/-- Claim C5 (amended): every successful send ends with the pin driven LOW
exactly once (its write trace is some prefix followed by the single final
LOW write); when a pin set call fails, `send` returns the error immediately
and the trailing LOW is not attempted — failure at the second set call
leaves the trace `[High]` with no LOW write. -/
theorem send_trailing_low_success :
    (∀ (enc : String → Device → State → Outcome (List Nat)) (P : ProtocolValues)
        (fd : Funksteckdose PinModel) (g : String) (d : Device) (s : State)
        (ws : List Value),
      send enc P fd g d s = (Outcome.ok (), ws) → ∃ t, ws = t ++ [Value.Low]) ∧
    send EncodingA.encode Protocol1.values
        (Funksteckdose.with_repeat_transmit
          (drvFailAt 1 (Error.InvalidDevice "pin failure")) 1)
        "10001" Device.A State.On =
      (Outcome.err (Error.InvalidDevice "pin failure"), [Value.High]) :=
  ⟨send_ok_trailing, rfl⟩

/-- Witness for C5 (amended): the successful Protocol1 send of the running
example ends in a single trailing LOW write. -/
theorem send_trailing_low_success_witness :
    ∃ t, (send EncodingA.encode Protocol1.values
        (Funksteckdose.with_repeat_transmit drvOk 1) "10001" Device.A State.On).2 =
      t ++ [Value.Low] :=
  send_trailing_low_success.1 EncodingA.encode Protocol1.values
    (Funksteckdose.with_repeat_transmit drvOk 1) "10001" Device.A State.On
    (send EncodingA.encode Protocol1.values
        (Funksteckdose.with_repeat_transmit drvOk 1) "10001" Device.A State.On).2
    rfl

/-- Counterexample to claim C6: the successful Protocol1 send (non-inverted,
first write HIGH) does not alternate strictly over the whole recorded
sequence — its last two writes are both LOW (the sync pair's second write
and the trailing LOW). -/
theorem protocol1_trace_not_strictly_alternating :
    (send EncodingA.encode Protocol1.values
        (Funksteckdose.with_repeat_transmit drvOk 1) "10001" Device.A State.On).1 =
      Outcome.ok () ∧
    (send EncodingA.encode Protocol1.values
        (Funksteckdose.with_repeat_transmit drvOk 1) "10001" Device.A State.On).2.head? =
      some Value.High ∧
    alternating (send EncodingA.encode Protocol1.values
        (Funksteckdose.with_repeat_transmit drvOk 1) "10001" Device.A State.On).2 =
      false :=
  ⟨rfl, rfl, rfl⟩

/-- Claim C6 (amended): the first write is HIGH for the non-inverted
Protocol1 and LOW for the inverted ProtocolHT6P20B; for Protocol1 the trace
alternates strictly except for its final trailing LOW write, which repeats
the preceding LOW (the trace without its last element alternates strictly
and the trace ends LOW); for the inverted ProtocolHT6P20B the whole trace
alternates strictly. -/
theorem trace_polarity_alternation :
    (send EncodingA.encode Protocol1.values
        (Funksteckdose.with_repeat_transmit drvOk 1) "10001" Device.A State.On).2.head? =
      some Value.High ∧
    (send EncodingA.encode ProtocolHT6P20B.values
        (Funksteckdose.with_repeat_transmit drvOk 1) "10001" Device.A State.On).2.head? =
      some Value.Low ∧
    alternating ((send EncodingA.encode Protocol1.values
        (Funksteckdose.with_repeat_transmit drvOk 1) "10001" Device.A State.On).2.dropLast) =
      true ∧
    (send EncodingA.encode Protocol1.values
        (Funksteckdose.with_repeat_transmit drvOk 1) "10001" Device.A State.On).2.getLast? =
      some Value.Low ∧
    alternating (send EncodingA.encode ProtocolHT6P20B.values
        (Funksteckdose.with_repeat_transmit drvOk 1) "10001" Device.A State.On).2 =
      true :=
  ⟨rfl, rfl, rfl, rfl, rfl⟩

end Funk
